import Mathlib

/-!
# Verification of the `ad_helper` Active-Directory helper library

A shallow embedding of the library's pure core, translated from
`src/lib.rs`:

* `obj_sid_to_string` — the binary SID decoder;
* the `AttributeHelper` operations on `SearchEntry`
  (`int_attr`, `str_attr`, `member_of`, `enabled`, `last_logon`, `sid`);
* `generate_bulk_filter` — the LDAP bulk-filter builder;
* the SRV-record sorting step of `autoconnect_ldap`.

Rust `u8` bytes are modelled as `Fin 256`; machine integers as `Nat`/`Int`.
Operations that can panic in Rust (out-of-bounds slice indexing,
`Vec::remove` on an empty vector) are modelled with an explicit
`panicked` outcome, so that panics are visible in the embedding.
-/

namespace AdHelper

/-- A Rust `u8` byte. -/
abbrev Byte := Fin 256

/-- Outcome of a Rust computation that may panic instead of returning. -/
inductive Ret (α : Type) where
  | panicked : Ret α
  | ok : α → Ret α
deriving DecidableEq

/-- Outcome of `obj_sid_to_string`: a panic, an `anyhow::Error` message,
or a SID string. -/
inductive SidOutcome where
  | panicked : SidOutcome
  | err : String → SidOutcome
  | ok : String → SidOutcome
deriving DecidableEq

/-- Read four bytes as a little-endian 32-bit unsigned integer
(`read_u32::<LittleEndian>` in the Rust). -/
def le32 (a b c d : Byte) : Nat :=
  a.val + 256 * b.val + 65536 * c.val + 16777216 * d.val

/-- `chunks_exact(4)` over the sub-authority region followed by the
little-endian read of each chunk: any incomplete trailing chunk is
dropped, exactly as `chunks_exact` drops the remainder. -/
def subAuthChunks : List Byte → List Nat
  | a :: b :: c :: d :: rest => le32 a b c d :: subAuthChunks rest
  | _ => []

/-- The string assembled from `"S-"`, the revision, the sub-authority
count and the dash-separated sub-authority values (the `sid_str`
`push`/`push_str` sequence of the Rust). -/
def sidString (revision subauth_count : Nat) (subs : List Nat) : String :=
  subs.foldl (fun s v => s ++ "-" ++ toString v)
    ("S-" ++ toString revision ++ "-" ++ toString subauth_count)

/-- The `SidLengthMismatch` message built by the `bail!` format string
(the stray closing parenthesis at the end is in the source). -/
def sidMismatchMsg (revision min_binary_length subauth_count actual : Nat) : String :=
  "According to byte " ++ toString revision ++
    " of the SID its total length should be (" ++ toString min_binary_length ++
    " + 4 * " ++ toString subauth_count ++
    ") bytes, however its actual length is " ++ toString actual ++ " bytes.)"

/-- Embedding of `obj_sid_to_string` (src/lib.rs:129-178).

The Rust reads the sub-authority count as `bytes[*revision as usize]`,
i.e. it indexes by the *value* of the revision byte; when that index is
out of bounds the slice indexing panics, modelled here as `.panicked`.
It likewise computes `min_binary_length` as
`*revision as usize + 1 + max_identifier_authority`. -/
def obj_sid_to_string (bytes : List Byte) : SidOutcome :=
  match bytes[0]? with
  | none => .err "Couldn't get revision from SID"
  | some revision =>
    match bytes[revision.val]? with
    | none => .panicked
    | some sc =>
      let subauth_count := sc.val
      if subauth_count > 15 then
        .err "SID exceeds the maximum number of sub authorities of 15"
      else
        let min_binary_length := revision.val + 1 + 6
        let max_binary_length := min_binary_length + subauth_count * 4
        if bytes.length < min_binary_length then
          .err "SID array doesn't meet the minimum size requirement."
        else if bytes.length ≠ max_binary_length then
          .err (sidMismatchMsg revision.val min_binary_length subauth_count bytes.length)
        else
          .ok (sidString revision.val subauth_count
            (subAuthChunks (bytes.drop min_binary_length)))

/-! ## The directory entry and its attribute maps

`ldap3::SearchEntry` carries `dn : String`,
`attrs : HashMap<String, Vec<String>>` and
`bin_attrs : HashMap<String, Vec<Vec<u8>>>`.  The hash maps are modelled
as association lists looked up and removed at the first matching key;
an actual `HashMap` never holds a duplicate key, and the theorems that
depend on map semantics after a removal carry a no-duplicate-keys
hypothesis. -/

/-- `HashMap::get`: the value at the first matching key, if any. -/
def alistGet {α : Type} : List (String × α) → String → Option α
  | [], _ => none
  | (k, v) :: rest, name => if k = name then some v else alistGet rest name

/-- `HashMap::remove`: the value at the first matching key together with
the map with that binding removed (the map is unchanged when the key is
absent). -/
def alistRemove {α : Type} : List (String × α) → String → Option α × List (String × α)
  | [], _ => (none, [])
  | (k, v) :: rest, name =>
    if k = name then (some v, rest)
    else
      let r := alistRemove rest name
      (r.1, (k, v) :: r.2)

/-- Embedding of `ldap3::SearchEntry` as consumed by the
`AttributeHelper` impl. -/
structure SearchEntry where
  dn : String
  attrs : List (String × List String)
  bin_attrs : List (String × List (List Byte))
deriving DecidableEq

/-- The digit run of `i64::from_str`: one or more ASCII digits, most
significant first; anything else (including the empty run) fails. -/
def parseDigitsAux : List Char → Nat → Option Nat
  | [], acc => some acc
  | c :: rest, acc =>
    if c.isDigit then parseDigitsAux rest (acc * 10 + (c.toNat - 48)) else none

/-- Parse a non-empty all-digit character run as a natural number. -/
def parseDigits : List Char → Option Nat
  | [] => none
  | cs => parseDigitsAux cs 0

/-- Embedding of Rust `str::parse::<i64>`: an optional single `+`/`-`
sign, then one or more ASCII digits, and the value must fit in the
signed 64-bit range. -/
def parseI64 (s : String) : Option Int :=
  let cs := s.toList
  let signDigits : Int × List Char :=
    match cs with
    | '+' :: rest => (1, rest)
    | '-' :: rest => (-1, rest)
    | _ => (1, cs)
  match parseDigits signDigits.2 with
  | none => none
  | some n =>
    let v : Int := signDigits.1 * n
    if v < -(2 ^ 63) ∨ v ≥ 2 ^ 63 then none else some v

/-! ## The `AttributeHelper` operations (src/lib.rs:79-127)

Every operation is given the uniform shape "result paired with the
entry it leaves behind", so that the destructive operations
(`str_attr`, `member_of`, which take `&mut self` and remove map
entries) and the non-destructive ones (`int_attr`, `enabled`,
`last_logon`, `sid`, which take `&self`) are directly comparable. -/

/-- `int_attr` (src/lib.rs:89-96): first value of `attrs[name]` parsed
as `i64`; a present attribute with an empty value list parses the
default string `"0"`. -/
def int_attr (e : SearchEntry) (name : String) : Option Int × SearchEntry :=
  (match alistGet e.attrs name with
   | none => none
   | some vals => parseI64 (vals.headD "0"), e)

/-- `str_attr` (src/lib.rs:98-100): `self.attrs.remove(name)?.remove(0)`.
`HashMap::remove` takes the whole binding out of the map; `Vec::remove(0)`
then yields the first value and panics when the vector is empty.  The
values after the first are dropped with the removed vector. -/
def str_attr (e : SearchEntry) (name : String) : Ret (Option String × SearchEntry) :=
  match alistRemove e.attrs name with
  | (none, _) => .ok (none, e)
  | (some [], _) => .panicked
  | (some (v :: _), attrs') => .ok (some v, { e with attrs := attrs' })

/-- `member_of` (src/lib.rs:80-87): removes the whole `memberOf` binding
and returns its values in order. -/
def member_of (e : SearchEntry) : Option (List String) × SearchEntry :=
  match alistRemove e.attrs "memberOf" with
  | (none, _) => (none, e)
  | (some vals, attrs') => (some vals, { e with attrs := attrs' })

/-- `enabled` (src/lib.rs:102-106): `userAccountControl` (defaulting to
`2`) bitwise-ANDed with `2`, compared with `0`. -/
def enabled (e : SearchEntry) : Bool × SearchEntry :=
  ((((int_attr e "userAccountControl").1.getD 2).land 2) == 0, e)

/-- `last_logon` (src/lib.rs:108-116), the seconds since the Unix epoch
passed to `NaiveDateTime::from_timestamp` with nanoseconds `0`.  The
Rust computes the tick-to-second step as `(t as f64 / 10000000.0) as
u64`; that floating-point path is modelled here as exact truncating
division (they agree wherever the `f64` computation is exact, and the
theorems below use only the entry component of this pair).  Negative
timestamps saturate to `0` in the `as u64` cast, as `Int.toNat` does;
the two `saturating_sub`s are `Nat` subtraction. -/
def last_logon (e : SearchEntry) : Nat × SearchEntry :=
  let t := (int_attr e "lastLogonTimestamp").1.getD 0
  (t.toNat / 10000000 - 11644473600 - 25200, e)

/-- `sid` (src/lib.rs:118-126): the first `objectSid` binary value
(empty when the attribute or the value is absent) fed to the SID
decoder. -/
def sid (e : SearchEntry) : SidOutcome × SearchEntry :=
  (obj_sid_to_string
    (match alistGet e.bin_attrs "objectSid" with
     | none => []
     | some vs => vs.headD []), e)

/-! ## The bulk-filter builder (src/lib.rs:52-68) -/

/-- Embedding of `generate_bulk_filter`: the `format!` seed, one
`push_str` per identifier via `for_each` (a left fold over the list),
then the closing `))`. -/
def generate_bulk_filter (set : List String) (category attr : String) : String :=
  (set.foldl (fun filter n => filter ++ ("(" ++ attr ++ "=" ++ n ++ ")"))
    ("(&(objectCategory=" ++ category ++ ")(|")) ++ "))"

/-- The filter shape exactly as the specification words it: open
`(&(objectCategory=`, the category, `)(|`, then the concatenation of
one `(attribute=identifier)` group per identifier in order, then the
closing `))`.  Stated separately from `generate_bulk_filter` so the two
can be proved equal. -/
def bulk_filter_spec (ids : List String) (category attr : String) : String :=
  "(&(objectCategory=" ++ category ++ ")(|" ++
    ids.foldr (fun i acc => ("(" ++ attr ++ "=" ++ i ++ ")") ++ acc) "" ++ "))"

/-! ## SRV-record ordering in `autoconnect_ldap` (src/lib.rs:9-16)

The connector sorts the looked-up records with
`sorted_by(|a, b| a.priority().cmp(&b.priority()))` before iterating
them.  `itertools::sorted_by` is a stable sort (it collects into a
`Vec` and calls `Vec::sort_by`), so it is modelled by a stable sorting
function with the same comparator. -/

/-- A `trust_dns_resolver` SRV record as used by the connector. -/
structure SrvRecord where
  priority : Nat
  weight : Nat
  port : Nat
  target : String
deriving DecidableEq

/-- The comparator of src/lib.rs:14: records compare by `priority`
alone. -/
def srvLe (a b : SrvRecord) : Prop := a.priority ≤ b.priority

instance : DecidableRel srvLe := fun a b => Nat.decLe a.priority b.priority

/-- The sorted candidate list built at src/lib.rs:12-15: a stable sort
of the DNS iteration order by ascending priority. -/
def sortSrvRecords (records : List SrvRecord) : List SrvRecord :=
  records.insertionSort srvLe

instance : IsTotal SrvRecord srvLe := ⟨fun a b => Nat.le_total a.priority b.priority⟩

instance : IsTrans SrvRecord srvLe := ⟨fun _ _ _ => Nat.le_trans⟩

/-! ## Concrete inputs used by the individual theorems -/

/-- An entry whose attribute `x` is present with an empty value list. -/
def entryEmptyVals : SearchEntry := ⟨"cn=e", [("x", [])], []⟩

/-- An entry whose attribute `x` holds the two values `a` and `b`. -/
def entryTwoVals : SearchEntry := ⟨"cn=y", [("x", ["a", "b"])], []⟩

/-- `entryTwoVals` after `str_attr "x"`: the whole binding is gone. -/
def entryTwoValsAfter : SearchEntry := ⟨"cn=y", [], []⟩

/-- An entry carrying no `userAccountControl` attribute. -/
def entryNoUac : SearchEntry := ⟨"cn=w", [("cn", ["w"])], []⟩

/-- The 16-byte binary SID of the Administrators group. -/
def sidBytesA : List Byte := [1, 2, 0, 0, 0, 0, 0, 5, 32, 0, 0, 0, 32, 2, 0, 0]

/-- `sidBytesA` with all six identifier-authority bytes (indices 2-7)
replaced. -/
def sidBytesB : List Byte := [1, 2, 9, 9, 9, 9, 9, 9, 32, 0, 0, 0, 32, 2, 0, 0]

/-- SRV record of priority 10. -/
def rec10 : SrvRecord := ⟨10, 1, 389, "dc1.example.com"⟩

/-- SRV record of priority 20. -/
def rec20 : SrvRecord := ⟨20, 1, 389, "dc2.example.com"⟩

/-- SRV record of priority 30. -/
def rec30 : SrvRecord := ⟨30, 1, 389, "dc3.example.com"⟩

/-! ## Helper lemmas -/

/-- Indexing into a dropped list indexes the original list further
along. -/
theorem getElem?_drop_eq (l : List Byte) : ∀ (n i : Nat), (l.drop n)[i]? = l[n + i]? := by
  induction l with
  | nil => intro n i; simp
  | cons a t ih =>
    intro n i
    cases n with
    | zero => simp
    | succ m =>
      simp only [List.drop_succ_cons, ih m i, Nat.succ_add, List.getElem?_cons_succ]

/-- On inputs whose revision byte is `1`, the decoder reads the
sub-authority count from index 1, requires length `8 + 4·count`, and
decodes the sub-authorities from offset 8 on. -/
theorem obj_sid_rev1 (b : List Byte) (h : b[0]? = some 1) :
    obj_sid_to_string b =
      match b[1]? with
      | none => .panicked
      | some sc =>
        if sc.val > 15 then .err "SID exceeds the maximum number of sub authorities of 15"
        else if b.length < 8 then .err "SID array doesn't meet the minimum size requirement."
        else if b.length ≠ 8 + sc.val * 4 then .err (sidMismatchMsg 1 8 sc.val b.length)
        else .ok (sidString 1 sc.val (subAuthChunks (b.drop 8))) := by
  unfold obj_sid_to_string
  rw [h]
  rfl

/-- The first component of `alistRemove` is the looked-up value. -/
theorem alistRemove_fst {α : Type} (m : List (String × α)) (name : String) :
    (alistRemove m name).1 = alistGet m name := by
  induction m with
  | nil => rfl
  | cons kv rest ih =>
    obtain ⟨k, v⟩ := kv
    simp only [alistRemove, alistGet]
    by_cases hk : k = name
    · simp [hk]
    · simp [hk, ih]

/-- A key that is not among the map's keys looks up to nothing. -/
theorem alistGet_eq_none_of_not_mem {α : Type} {m : List (String × α)} {name : String}
    (h : name ∉ m.map Prod.fst) : alistGet m name = none := by
  induction m with
  | nil => rfl
  | cons kv rest ih =>
    obtain ⟨k, v⟩ := kv
    simp only [List.map_cons, List.mem_cons] at h
    push_neg at h
    simp only [alistGet]
    rw [if_neg (fun hk => h.1 hk.symm)]
    exact ih h.2

/-- After removing a key from a duplicate-free map, looking it up finds
nothing. -/
theorem alistGet_alistRemove_of_nodup {α : Type} (m : List (String × α)) (name : String)
    (hnd : (m.map Prod.fst).Nodup) : alistGet (alistRemove m name).2 name = none := by
  induction m with
  | nil => rfl
  | cons kv rest ih =>
    obtain ⟨k, v⟩ := kv
    simp only [List.map_cons, List.nodup_cons] at hnd
    simp only [alistRemove]
    by_cases hk : k = name
    · simp only [if_pos hk]
      exact alistGet_eq_none_of_not_mem (hk ▸ hnd.1)
    · simp only [if_neg hk, alistGet]
      exact ih hnd.2

/-- Removing an absent key leaves the map unchanged. -/
theorem alistRemove_of_get_none {α : Type} (m : List (String × α)) (name : String)
    (h : alistGet m name = none) : alistRemove m name = (none, m) := by
  induction m with
  | nil => rfl
  | cons kv rest ih =>
    obtain ⟨k, v⟩ := kv
    simp only [alistGet] at h
    by_cases hk : k = name
    · rw [if_pos hk] at h; cases h
    · rw [if_neg hk] at h
      simp only [alistRemove, if_neg hk, ih h]

/-- A left fold that appends `g n` for each element is the seed
followed by the concatenation of the `g n` in order. -/
theorem foldl_append_eq_foldr (g : String → String) :
    ∀ (l : List String) (init : String),
      l.foldl (fun f n => f ++ g n) init = init ++ l.foldr (fun n acc => g n ++ acc) ""
  | [], init => (String.append_empty init).symm
  | n :: l, init => by
    simp only [List.foldl_cons, List.foldr_cons]
    rw [foldl_append_eq_foldr g l (init ++ g n), String.append_assoc]

/-! ## The claims -/

/-- Claim C1 (code bug): the claim says `decode_sid` and every attribute
decoder operation return a value, an absence or an error for every input
and never panic.  The code panics: `obj_sid_to_string` indexes
`bytes[*revision as usize]`, so the one-byte input `[0x01]` indexes out
of bounds; and `str_attr` calls `Vec::remove(0)` on the removed value
vector, which panics when the attribute is present with an empty value
list. -/
theorem sid_decoder_and_str_attr_panic :
    obj_sid_to_string [1] = .panicked ∧
    str_attr entryEmptyVals "x" = .panicked := by decide

/-- Claim C2 (code bug): the claim says the sub-authority count is read
from the byte at index 1 for every input of length at least 2.  The code
reads it from `bytes[bytes[0]]`: on `[0x00, 0x10]` the claim demands the
`SidTooManySubAuthorities` failure (since `bytes[1] = 16 > 15`), but the
code reads count `0` from `bytes[0]` and fails `SidTooShort` instead;
on `[0x02, 0x00]` the code panics on the out-of-bounds index 2. -/
theorem sid_subauth_count_read_from_wrong_index :
    obj_sid_to_string [0, 16] =
      .err "SID array doesn't meet the minimum size requirement." ∧
    obj_sid_to_string [2, 0] = .panicked := by decide

/-- Claim C3 (code bug): the claim says every non-empty input with
`bytes[1] ≤ 15` and length `8 + 4·bytes[1]` decodes successfully.  The
all-zero 8-byte input satisfies that (count `0`, length `8`), yet the
code reads the count from `bytes[bytes[0]] = bytes[0] = 0`, computes the
required length as `0 + 1 + 6 = 7`, and rejects the input with the
length-mismatch error instead of returning `"S-0-0"`. -/
theorem sid_wellformed_rev0_rejected :
    obj_sid_to_string [0, 0, 0, 0, 0, 0, 0, 0] =
      .err (sidMismatchMsg 0 7 0 8) := by decide

/-- Claim C4: decoding the 16-byte Administrators SID
`01 02 00 00 00 00 00 05 20 00 00 00 20 02 00 00` yields the
implemented non-canonical string `"S-1-2-32-544"` (the identifier
authority is omitted; the second segment is the sub-authority count). -/
theorem sid_decode_administrators :
    obj_sid_to_string [1, 2, 0, 0, 0, 0, 0, 5, 32, 0, 0, 0, 32, 2, 0, 0] =
      .ok "S-1-2-32-544" := by decide

/-- Claim C5 counterexample: on an entry whose attribute `x` holds the
two values `a` and `b`, the first `str_attr "x"` returns `a` but the
second returns absent, not the second value `b` the claim promises:
`HashMap::remove` discards the whole binding, so the remaining values
are lost with it. -/
theorem str_attr_second_call_loses_values :
    str_attr entryTwoVals "x" = .ok (some "a", entryTwoValsAfter) ∧
    str_attr entryTwoValsAfter "x" = .ok (none, entryTwoValsAfter) := by decide

/-- Claim C5 as amended: `str_attr` removes the entire attribute
binding.  On any entry with duplicate-free attribute keys whose
attribute `name` holds a non-empty value list, the first call returns
the first value and removes the whole binding, and a second call with
the same name returns absent regardless of how many values the
attribute held. -/
theorem str_attr_removes_whole_attribute (e : SearchEntry) (name v : String) (vs : List String)
    (h : alistGet e.attrs name = some (v :: vs))
    (hnd : (e.attrs.map Prod.fst).Nodup) :
    str_attr e name = .ok (some v, { e with attrs := (alistRemove e.attrs name).2 }) ∧
    alistGet (alistRemove e.attrs name).2 name = none ∧
    str_attr { e with attrs := (alistRemove e.attrs name).2 } name =
      .ok (none, { e with attrs := (alistRemove e.attrs name).2 }) := by
  have hfst : (alistRemove e.attrs name).1 = some (v :: vs) := by
    rw [alistRemove_fst, h]
  have hnone : alistGet (alistRemove e.attrs name).2 name = none :=
    alistGet_alistRemove_of_nodup e.attrs name hnd
  refine ⟨?_, hnone, ?_⟩
  · rcases hr : alistRemove e.attrs name with ⟨r1, r2⟩
    rw [hr] at hfst
    simp only at hfst
    subst hfst
    simp [str_attr, hr]
  · have hu : alistRemove (alistRemove e.attrs name).2 name =
        (none, (alistRemove e.attrs name).2) :=
      alistRemove_of_get_none _ _ hnone
    simp [str_attr, hu]

/-- Witness for the amended C5 theorem at the concrete two-valued
entry. -/
theorem str_attr_removes_whole_attribute_witness :
    str_attr entryTwoVals "x" =
      .ok (some "a", { entryTwoVals with attrs := (alistRemove entryTwoVals.attrs "x").2 }) ∧
    alistGet (alistRemove entryTwoVals.attrs "x").2 "x" = none ∧
    str_attr { entryTwoVals with attrs := (alistRemove entryTwoVals.attrs "x").2 } "x" =
      .ok (none, { entryTwoVals with attrs := (alistRemove entryTwoVals.attrs "x").2 }) :=
  str_attr_removes_whole_attribute entryTwoVals "x" "a" ["b"] (by decide) (by decide)

/-- Claim C7: `generate_bulk_filter` is pure and produces exactly
`(&(objectCategory=<category>)(|` followed by one
`(<attr>=<identifier>)` group per identifier in order and the closing
`))`; the empty list yields `(&(objectCategory=<category>)(|))`, and
the `JSmith`/`AJones` example produces the expected filter. -/
theorem generate_bulk_filter_shape :
    (∀ (ids : List String) (category attr : String),
      generate_bulk_filter ids category attr = bulk_filter_spec ids category attr) ∧
    (∀ (category attr : String),
      generate_bulk_filter [] category attr =
        "(&(objectCategory=" ++ category ++ ")(|))") ∧
    generate_bulk_filter ["JSmith", "AJones"] "user" "samaccountname" =
      "(&(objectCategory=user)(|(samaccountname=JSmith)(samaccountname=AJones)))" := by
  refine ⟨fun ids category attr => ?_, fun category attr => ?_, by decide⟩
  · unfold generate_bulk_filter bulk_filter_spec
    rw [foldl_append_eq_foldr (fun n => "(" ++ attr ++ "=" ++ n ++ ")")]
  · show ("(&(objectCategory=" ++ category ++ ")(|") ++ "))" =
      "(&(objectCategory=" ++ category ++ ")(|))"
    rw [String.append_assoc]
    rfl

/-- Claim C8: the candidate list the Auto-Connector iterates is the SRV
lookup result stably sorted by ascending priority alone: it is sorted
by priority, it is a permutation of the input, records of equal
priority keep their DNS iteration order (the filter at any fixed
priority is unchanged), and priorities `[30, 10, 20]` come out as
`[10, 20, 30]`. -/
theorem srv_sort_by_priority_stable :
    (∀ records : List SrvRecord, (sortSrvRecords records).Sorted srvLe) ∧
    (∀ records : List SrvRecord, List.Perm (sortSrvRecords records) records) ∧
    (∀ (records : List SrvRecord) (p : Nat),
      (sortSrvRecords records).filter (fun r => r.priority == p) =
        records.filter (fun r => r.priority == p)) ∧
    sortSrvRecords [rec30, rec10, rec20] = [rec10, rec20, rec30] := by
  refine ⟨fun records => List.sorted_insertionSort srvLe records,
    fun records => List.perm_insertionSort srvLe records, fun records p => ?_, by decide⟩
  set q : SrvRecord → Bool := fun r => r.priority == p with hq
  have hmemq : ∀ r, q r = true → r.priority = p := by
    intro r hr
    simpa [hq] using hr
  have hpw : (records.filter q).Pairwise srvLe := by
    apply List.pairwise_of_forall_mem_list
    intro a ha b hb
    rw [List.mem_filter] at ha hb
    show a.priority ≤ b.priority
    rw [hmemq a ha.2, hmemq b hb.2]
  have hsub : List.Sublist (records.filter q) (sortSrvRecords records) :=
    List.sublist_insertionSort hpw (List.filter_sublist records)
  have hidem : (records.filter q).filter q = records.filter q := by
    rw [List.filter_eq_self]
    intro a ha
    exact (List.mem_filter.mp ha).2
  have hsub2 : List.Sublist (records.filter q) ((sortSrvRecords records).filter q) := by
    have hf := hsub.filter q
    rwa [hidem] at hf
  have hperm : List.Perm ((sortSrvRecords records).filter q) (records.filter q) :=
    (List.perm_insertionSort srvLe records).filter q
  exact (hsub2.eq_of_length hperm.length_eq.symm).symm

/-- Claim C9: `int_attr`, `enabled`, `last_logon` and `sid` leave the
entry (its `dn`, `attrs` and `bin_attrs`) exactly unchanged; `enabled`
is the bitwise test `(userAccountControl or default 2) AND 2 == 0`, so
an entry with no `userAccountControl` is reported disabled. -/
theorem nondestructive_reads_and_disabled_default (e : SearchEntry) (name : String) :
    (int_attr e name).2 = e ∧ (enabled e).2 = e ∧ (last_logon e).2 = e ∧ (sid e).2 = e ∧
    (enabled e).1 = ((((int_attr e "userAccountControl").1.getD 2).land 2) == 0) ∧
    (alistGet e.attrs "userAccountControl" = none → (enabled e).1 = false) := by
  refine ⟨rfl, rfl, rfl, rfl, rfl, fun h => ?_⟩
  simp only [enabled, int_attr, h]
  decide

/-- Witness for C9 at a concrete entry with no `userAccountControl`. -/
theorem nondestructive_reads_and_disabled_default_witness :
    (enabled entryNoUac).1 = false ∧ (sid entryNoUac).2 = entryNoUac :=
  ⟨(nondestructive_reads_and_disabled_default entryNoUac "cn").2.2.2.2.2 (by decide),
   (nondestructive_reads_and_disabled_default entryNoUac "cn").2.2.2.1⟩

/-- Claim C10: the identifier-authority bytes never influence the
output.  For any two byte sequences of equal length whose byte 0 is `1`
and which agree everywhere except possibly at indices 2 through 7,
`obj_sid_to_string` returns identical results — the same string, or the
same error with the same message. -/
theorem sid_authority_bytes_irrelevant (b1 b2 : List Byte)
    (hlen : b1.length = b2.length)
    (h1 : b1[0]? = some 1) (h2 : b2[0]? = some 1)
    (hagree : ∀ i, i < b1.length → i < 2 ∨ 8 ≤ i → b1[i]? = b2[i]?) :
    obj_sid_to_string b1 = obj_sid_to_string b2 := by
  have hb11 : b1[1]? = b2[1]? := by
    by_cases hl : 1 < b1.length
    · exact hagree 1 hl (Or.inl (by omega))
    · rw [List.getElem?_eq_none (by omega), List.getElem?_eq_none (by omega)]
  have hdrop : b1.drop 8 = b2.drop 8 := by
    apply List.ext_getElem?
    intro i
    rw [getElem?_drop_eq, getElem?_drop_eq]
    by_cases hl : 8 + i < b1.length
    · exact hagree (8 + i) hl (Or.inr (by omega))
    · rw [List.getElem?_eq_none (by omega), List.getElem?_eq_none (by omega)]
  rw [obj_sid_rev1 b1 h1, obj_sid_rev1 b2 h2, hb11, hlen, hdrop]

/-- Witness for C10: the Administrators SID and a copy with all six
authority bytes replaced decode identically. -/
theorem sid_authority_bytes_irrelevant_witness :
    obj_sid_to_string sidBytesA = obj_sid_to_string sidBytesB :=
  sid_authority_bytes_irrelevant sidBytesA sidBytesB (by decide) (by decide) (by decide)
    (by decide)

end AdHelper
